import Mathlib

/-!
Verification development for the pros-simulator host runtime.

Shallow embeddings of the scheduler (`host/task.rs`), the mutex pool
(`host/multitasking.rs`), the LCD device (`host/lcd.rs`), the controllers
(`host/controllers.rs`), the motor device (`host/smart_device.rs`) and the
guest-facing API wrappers (`api/rtos_facilities.rs`, `api/llemu.rs`,
`api/motors.rs`, `api/generic_io.rs`), together with theorems about their
documented behaviour.
-/

namespace ProsSim

/-- POSIX errno values used by the simulator (from the pros-sys crate). -/
def ENXIO : Int := 6

/-- POSIX errno value EBADF (from the pros-sys crate). -/
def EBADF : Int := 9

/-- POSIX errno value EINVAL (from the pros-sys crate). -/
def EINVAL : Int := 22

/-- `pros_sys::TIMEOUT_MAX`: passed as a timeout to mean "wait forever". -/
def TIMEOUT_MAX : Nat := 0xFFFFFFFF

/-- `TASK_PRIORITIES` from `host/task.rs`: internal priorities are `0..16`. -/
def TASK_PRIORITIES : Nat := 16

/-! ## Scheduler: `TaskPool::highest_priority_task_ids` and `TaskPool::cycle_tasks`

A pool entry is a pair `(id, priority)`; the pool is the value list of the
`HashMap<u32, TaskHandle>` in some iteration order.  `highest_priority_task_ids`
folds over the entries keeping the running maximum priority and the ids that
attain it, then sorts the ids ascending (`tasks.sort()`).
-/

/-- One loop iteration of `TaskPool::highest_priority_task_ids`:
if the task's priority beats the running maximum, update it and clear the
collected ids; if it equals the (possibly updated) maximum, push its id. -/
def hpStep (acc : Nat × List Nat) (t : Nat × Nat) : Nat × List Nat :=
  let hp := if acc.1 < t.2 then t.2 else acc.1
  let ids := if acc.1 < t.2 then [] else acc.2
  if t.2 = hp then (hp, ids ++ [t.1]) else (hp, ids)

/-- `TaskPool::highest_priority_task_ids`: the ids of the tasks whose priority
is the running maximum (starting from 0), sorted ascending. -/
def highestPriorityTaskIds (pool : List (Nat × Nat)) : List Nat :=
  (pool.foldl hpStep (0, [])).2.insertionSort (· ≤ ·)

/-- The maximum priority present in the pool, with floor 0 (matching the
initialisation `let mut highest_priority = 0`). -/
def maxPriority (pool : List (Nat × Nat)) : Nat :=
  pool.foldl (fun m t => max m t.2) 0

/-- The task-selection step of `TaskPool::cycle_tasks` (scheduler not
suspended): among the highest-priority ids, pick the first strictly greater
than the current id, or wrap to the first candidate. -/
def cycleNext (pool : List (Nat × Nat)) (currentId : Nat) : Option Nat :=
  let candidates := highestPriorityTaskIds pool
  ((candidates.find? fun id => currentId < id).orElse fun _ => candidates.head?)

lemma foldl_max_init (pool : List (Nat × Nat)) (a : Nat) :
    pool.foldl (fun m t => max m t.2) a = max a (maxPriority pool) := by
  induction pool generalizing a with
  | nil => simp [maxPriority]
  | cons t rest ih =>
    simp only [List.foldl_cons, maxPriority]
    rw [ih, ih (max 0 t.2)]
    omega

lemma maxPriority_cons (t : Nat × Nat) (rest : List (Nat × Nat)) :
    maxPriority (t :: rest) = max t.2 (maxPriority rest) := by
  show List.foldl _ _ (t :: rest) = _
  rw [List.foldl_cons, foldl_max_init]
  omega

lemma le_maxPriority (pool : List (Nat × Nat)) (t : Nat × Nat) (ht : t ∈ pool) :
    t.2 ≤ maxPriority pool := by
  induction pool with
  | nil => cases ht
  | cons u rest ih =>
    rw [maxPriority_cons]
    rcases List.mem_cons.1 ht with h | h
    · subst h; omega
    · have := ih h; omega

lemma maxPriority_mem (pool : List (Nat × Nat)) (hne : pool ≠ []) :
    ∃ t ∈ pool, t.2 = maxPriority pool := by
  induction pool with
  | nil => exact absurd rfl hne
  | cons u rest ih =>
    rw [maxPriority_cons]
    rcases Decidable.em (rest = []) with hr | hr
    · subst hr
      exact ⟨u, List.mem_cons_self _ _, by simp [maxPriority]⟩
    · obtain ⟨t, htm, htv⟩ := ih hr
      rcases Decidable.em (u.2 ≤ maxPriority rest) with hle | hlt
      · exact ⟨t, List.mem_cons_of_mem _ htm, by omega⟩
      · exact ⟨u, List.mem_cons_self _ _, by omega⟩

lemma hpStep_eq (hp : Nat) (ids : List Nat) (t : Nat × Nat) :
    hpStep (hp, ids) t =
      (max hp t.2,
       (if hp < t.2 then [] else ids) ++ (if hp ≤ t.2 then [t.1] else [])) := by
  simp only [hpStep]
  rcases Decidable.em (hp < t.2) with h | h
  · simp only [if_pos h]
    simp [show max hp t.2 = t.2 by omega, show hp ≤ t.2 by omega]
  · simp only [if_neg h]
    have hm : max hp t.2 = hp := by omega
    rcases Decidable.em (t.2 = hp) with he | he
    · simp [he, hm, show hp ≤ t.2 by omega]
    · simp [he, hm, show ¬ hp ≤ t.2 by omega]

/-- Characterisation of the fold in `highest_priority_task_ids`: starting from
accumulator `(hp, ids)`, the collected ids are the previous ones (kept only if
the maximum does not move) followed by the ids of pool entries attaining the
final maximum, in iteration order. -/
lemma hpFold_spec (pool : List (Nat × Nat)) (hp : Nat) (ids : List Nat) :
    pool.foldl hpStep (hp, ids) =
      (max hp (maxPriority pool),
       (if maxPriority pool ≤ hp then ids else []) ++
         (pool.filter fun t => t.2 = max hp (maxPriority pool)).map Prod.fst) := by
  induction pool generalizing hp ids with
  | nil => simp [maxPriority]
  | cons t rest ih =>
    rw [List.foldl_cons, hpStep_eq, ih, maxPriority_cons]
    have hf : ((t :: rest).filter fun u => u.2 = max hp (max t.2 (maxPriority rest))).map
        Prod.fst =
        (if t.2 = max hp (max t.2 (maxPriority rest)) then [t.1] else []) ++
          ((rest.filter fun u => u.2 = max hp (max t.2 (maxPriority rest))).map Prod.fst) := by
      rcases Decidable.em (t.2 = max hp (max t.2 (maxPriority rest))) with he | he
      · rw [if_pos he, List.filter_cons_of_pos (by simpa using he), List.map_cons,
          List.singleton_append]
      · rw [if_neg he, List.filter_cons_of_neg (by simpa using he), List.nil_append]
    rw [hf]
    have hmm : max (max hp t.2) (maxPriority rest) = max hp (max t.2 (maxPriority rest)) := by
      omega
    rw [hmm, ← List.append_assoc]
    refine Prod.ext rfl ?_
    show _ ++ _ = _
    congr 1
    rcases Decidable.em (hp < t.2) with h1 | h1
    · rcases Decidable.em (maxPriority rest ≤ t.2) with h2 | h2
      · rw [if_pos (show maxPriority rest ≤ max hp t.2 by omega),
          if_pos h1, if_pos (show hp ≤ t.2 by omega),
          if_neg (show ¬ max t.2 (maxPriority rest) ≤ hp by omega),
          if_pos (show t.2 = max hp (max t.2 (maxPriority rest)) by omega)]
      · rw [if_neg (show ¬ maxPriority rest ≤ max hp t.2 by omega),
          if_neg (show ¬ max t.2 (maxPriority rest) ≤ hp by omega),
          if_neg (show ¬ t.2 = max hp (max t.2 (maxPriority rest)) by omega),
          List.nil_append]
    · rcases Decidable.em (maxPriority rest ≤ hp) with h2 | h2
      · rw [if_pos (show maxPriority rest ≤ max hp t.2 by omega),
          if_neg h1, if_pos (show max t.2 (maxPriority rest) ≤ hp by omega)]
        rcases Decidable.em (hp ≤ t.2) with h3 | h3
        · rw [if_pos h3, if_pos (show t.2 = max hp (max t.2 (maxPriority rest)) by omega)]
        · rw [if_neg h3, if_neg (show ¬ t.2 = max hp (max t.2 (maxPriority rest)) by omega)]
      · rw [if_neg (show ¬ maxPriority rest ≤ max hp t.2 by omega),
          if_neg (show ¬ max t.2 (maxPriority rest) ≤ hp by omega),
          if_neg (show ¬ t.2 = max hp (max t.2 (maxPriority rest)) by omega),
          List.nil_append]

/-- The sorted candidate list is exactly the ids attaining the pool maximum. -/
lemma highestPriorityTaskIds_eq (pool : List (Nat × Nat)) :
    highestPriorityTaskIds pool =
      ((pool.filter fun t => t.2 = maxPriority pool).map Prod.fst).insertionSort (· ≤ ·) := by
  unfold highestPriorityTaskIds
  rw [hpFold_spec]
  have h0 : max 0 (maxPriority pool) = maxPriority pool := by omega
  rcases Decidable.em (maxPriority pool ≤ 0) with hz | hz
  · rw [if_pos hz, List.nil_append, h0]
  · rw [if_neg hz, List.nil_append, h0]

lemma highestPriorityTaskIds_sorted (pool : List (Nat × Nat)) :
    (highestPriorityTaskIds pool).Sorted (· ≤ ·) := by
  unfold highestPriorityTaskIds
  exact List.sorted_insertionSort _ _

lemma highestPriorityTaskIds_mem (pool : List (Nat × Nat)) (n : Nat) :
    n ∈ highestPriorityTaskIds pool ↔
      ∃ t ∈ pool, t.1 = n ∧ t.2 = maxPriority pool := by
  rw [highestPriorityTaskIds_eq]
  rw [(List.perm_insertionSort (· ≤ ·) _).mem_iff]
  simp only [List.mem_map, List.mem_filter]
  constructor
  · rintro ⟨t, ⟨htm, htp⟩, rfl⟩
    exact ⟨t, htm, rfl, by simpa using htp⟩
  · rintro ⟨t, htm, rfl, htp⟩
    exact ⟨t, ⟨htm, by simpa using htp⟩, rfl⟩

lemma highestPriorityTaskIds_ne_nil (pool : List (Nat × Nat)) (hne : pool ≠ []) :
    highestPriorityTaskIds pool ≠ [] := by
  obtain ⟨t, htm, htv⟩ := maxPriority_mem pool hne
  intro hnil
  have : t.1 ∈ highestPriorityTaskIds pool :=
    (highestPriorityTaskIds_mem pool t.1).2 ⟨t, htm, rfl, htv⟩
  rw [hnil] at this
  cases this

/-- On an ascending-sorted list, `find?` with predicate `cur < ·` returns the
least element above `cur` when one exists, and `none` otherwise. -/
lemma find_sorted_min (l : List Nat) (hs : l.Sorted (· ≤ ·)) (cur : Nat) :
    (∃ n, l.find? (fun id => cur < id) = some n ∧ cur < n ∧
        ∀ m ∈ l, cur < m → n ≤ m) ∨
      (l.find? (fun id => cur < id) = none ∧ ∀ m ∈ l, m ≤ cur) := by
  induction l with
  | nil => exact Or.inr ⟨rfl, by simp⟩
  | cons a rest ih =>
    have hs' : rest.Sorted (· ≤ ·) := hs.of_cons
    have hle : ∀ m ∈ rest, a ≤ m := fun m hm => (List.sorted_cons.1 hs).1 m hm
    rcases Decidable.em (cur < a) with h | h
    · left
      refine ⟨a, List.find?_cons_of_pos _ (by simpa using h), h, ?_⟩
      intro m hm _
      rcases List.mem_cons.1 hm with rfl | hm
      · exact le_refl _
      · exact hle m hm
    · have hfind : (a :: rest).find? (fun id => cur < id) =
          rest.find? (fun id => cur < id) :=
        List.find?_cons_of_neg _ (by simpa using h)
      rcases ih hs' with ⟨n, hn, hcn, hmin⟩ | ⟨hnone, hall⟩
      · left
        refine ⟨n, by rw [hfind]; exact hn, hcn, ?_⟩
        intro m hm hcm
        rcases List.mem_cons.1 hm with rfl | hm
        · omega
        · exact hmin m hm hcm
      · right
        refine ⟨by rw [hfind]; exact hnone, ?_⟩
        intro m hm
        rcases List.mem_cons.1 hm with rfl | hm
        · omega
        · exact hall m hm

lemma head_sorted_min (l : List Nat) (hs : l.Sorted (· ≤ ·)) (n : Nat)
    (h : l.head? = some n) : n ∈ l ∧ ∀ m ∈ l, n ≤ m := by
  cases l with
  | nil => cases h
  | cons a rest =>
    have ha : a = n := by simpa using h
    subst ha
    refine ⟨List.mem_cons_self _ _, ?_⟩
    intro m hm
    rcases List.mem_cons.1 hm with rfl | hm
    · exact le_refl _
    · exact (List.sorted_cons.1 hs).1 m hm

/-- `n` is among the ids of pool tasks whose priority equals the maximum
priority present in the pool (the claim-side description of the candidate
set `C`). -/
def inMaxSet (pool : List (Nat × Nat)) (n : Nat) : Prop :=
  ∃ t ∈ pool, t.1 = n ∧ t.2 = maxPriority pool

/-- C1: on a non-empty pool with the scheduler not suspended, `cycle_tasks`
makes current the task with the smallest id in the max-priority set `C`
strictly greater than the current id, or, when no such id exists, the task
with the smallest id in `C`. -/
theorem cycle_tasks_round_robin (pool : List (Nat × Nat)) (cur : Nat)
    (hne : pool ≠ []) :
    ∃ n, cycleNext pool cur = some n ∧ inMaxSet pool n ∧
      ((∃ m, inMaxSet pool m ∧ cur < m) →
        cur < n ∧ ∀ m, inMaxSet pool m → cur < m → n ≤ m) ∧
      ((¬ ∃ m, inMaxSet pool m ∧ cur < m) → ∀ m, inMaxSet pool m → n ≤ m) := by
  have hsorted := highestPriorityTaskIds_sorted pool
  have hmem := highestPriorityTaskIds_mem pool
  have hnil := highestPriorityTaskIds_ne_nil pool hne
  rcases find_sorted_min (highestPriorityTaskIds pool) hsorted cur with
    ⟨n, hn, hcn, hmin⟩ | ⟨hnone, hall⟩
  · refine ⟨n, ?_, ?_, ?_, ?_⟩
    · simp only [cycleNext, hn, Option.some_orElse']
    · exact (hmem n).1 (List.mem_of_find?_eq_some hn)
    · intro _
      exact ⟨hcn, fun m hm hcm => hmin m ((hmem m).2 hm) hcm⟩
    · intro hno
      exact absurd ⟨n, (hmem n).1 (List.mem_of_find?_eq_some hn), hcn⟩ hno
  · rcases List.exists_mem_of_ne_nil _ hnil with ⟨a, _⟩
    obtain ⟨b, hb⟩ : ∃ b, (highestPriorityTaskIds pool).head? = some b := by
      cases hh : (highestPriorityTaskIds pool).head? with
      | none => exact absurd (List.head?_eq_none_iff.1 hh) hnil
      | some b => exact ⟨b, rfl⟩
    obtain ⟨hbmem, hbmin⟩ := head_sorted_min _ hsorted b hb
    refine ⟨b, ?_, (hmem b).1 hbmem, ?_, ?_⟩
    · simp only [cycleNext, hnone, Option.none_orElse']
      exact hb
    · rintro ⟨m, hm, hcm⟩
      exact absurd hcm (by simpa using hall m ((hmem m).2 hm))
    · intro _ m hm
      exact hbmin m ((hmem m).2 hm)

/-- Witness for C1 at a concrete pool: tasks 2 and 3 have the maximum
priority 7 and the current task is 2, so task 3 is selected. -/
theorem cycle_tasks_round_robin_witness :
    ∃ n, cycleNext [(1, 5), (2, 7), (3, 7)] 2 = some n ∧
      inMaxSet [(1, 5), (2, 7), (3, 7)] n ∧
      ((∃ m, inMaxSet [(1, 5), (2, 7), (3, 7)] m ∧ 2 < m) →
        2 < n ∧ ∀ m, inMaxSet [(1, 5), (2, 7), (3, 7)] m → 2 < m → n ≤ m) ∧
      ((¬ ∃ m, inMaxSet [(1, 5), (2, 7), (3, 7)] m ∧ 2 < m) →
        ∀ m, inMaxSet [(1, 5), (2, 7), (3, 7)] m → n ≤ m) :=
  cycle_tasks_round_robin [(1, 5), (2, 7), (3, 7)] 2 (by decide)

/-- C2: whenever `cycle_tasks` selects a new current task, that task attains
the maximum priority of the pool, so no task with a strictly higher-priority
competitor is ever scheduled while the competitor is in the pool. -/
theorem cycle_tasks_priority_dominance (pool : List (Nat × Nat)) (cur n : Nat)
    (h : cycleNext pool cur = some n) :
    ∃ p, (n, p) ∈ pool ∧ ∀ t ∈ pool, t.2 ≤ p := by
  have hmemC : n ∈ highestPriorityTaskIds pool := by
    rcases hfind : (highestPriorityTaskIds pool).find? (fun id => cur < id) with
      _ | m
    · simp only [cycleNext, hfind, Option.none_orElse'] at h
      exact List.mem_of_mem_head? (by rw [h]; rfl)
    · simp only [cycleNext, hfind, Option.some_orElse'] at h
      cases h
      exact List.mem_of_find?_eq_some hfind
  obtain ⟨t, htm, ht1, ht2⟩ := (highestPriorityTaskIds_mem pool n).1 hmemC
  refine ⟨maxPriority pool, ?_, fun u hu => le_maxPriority pool u hu⟩
  have : t = (n, maxPriority pool) := by
    cases t
    simp_all
  rw [← this]
  exact htm

/-- Witness for C2 at a concrete pool: from current task 0, task 2 (priority
7, the maximum) is selected. -/
theorem cycle_tasks_priority_dominance_witness :
    ∃ p, (2, p) ∈ [(1, 5), (2, 7), (3, 7)] ∧
      ∀ t ∈ [(1, 5), (2, 7), (3, 7)], t.2 ≤ p :=
  cycle_tasks_priority_dominance [(1, 5), (2, 7), (3, 7)] 0 2 (by decide)

/-! ## Mutex pool: `MutexPool::lock` / `MutexPool::unlock` (`host/multitasking.rs`)
and the `mutex_take` / `mutex_give` wrappers (`api/rtos_facilities.rs`)

A `HostMutex` is `{inner: Arc<Mutex<()>>, lock: Option<OwnedMutexGuard<()>>}`.
The guard only ever lives in the `lock` field, so the inner tokio mutex is
held exactly when `lock` is `Some`; we record, as ghost data, the id of the
task whose successful `lock` call stored the guard.  The pool is a `Slab`,
modelled as a list of optional slots.  Real-time behaviour of
`tokio::select! {biased; ...}` is modelled by an oracle `releaseAt`: the
instant at which the current guard holder would release the guard (`none` if
never); acquisition of a free mutex completes immediately, and the `biased`
select prefers acquisition on a tie with the timer.
-/

/-- A `HostMutex`: `holder = some t` means the `lock` field currently stores
the `OwnedMutexGuard` obtained by task `t`'s `lock` call. -/
structure HostMutex where
  holder : Option Nat
deriving DecidableEq, Repr

/-- How a `MutexPool::lock` call resolves: the `biased` select either wins the
inner lock acquisition, or the timer fires first, or (with no deadline and a
holder that never releases) the future never completes. -/
inductive LockOutcome where
  | acquired
  | timedOut
  | diverges
deriving DecidableEq, Repr

/-- `MutexPool::lock(mutex_id, timeout)`: `none` models the host panic of
`self.mutexes.get_mut(mutex_id).unwrap()` on a vacant slot.  On a free mutex
the acquisition branch completes immediately; on a held mutex it completes
at `releaseAt`, racing the timer firing at `deadline`. -/
def MutexPool.lock (pool : List (Option HostMutex)) (id tid : Nat)
    (deadline : Option Nat) (releaseAt : Option Nat) :
    Option (LockOutcome × List (Option HostMutex)) :=
  match pool[id]? with
  | none => none
  | some none => none
  | some (some m) =>
    match m.holder with
    | none => some (.acquired, pool.set id (some ⟨some tid⟩))
    | some _ =>
      match releaseAt, deadline with
      | some r, some d =>
        if r ≤ d then some (.acquired, pool.set id (some ⟨some tid⟩))
        else some (.timedOut, pool)
      | some _, none => some (.acquired, pool.set id (some ⟨some tid⟩))
      | none, some _ => some (.timedOut, pool)
      | none, none => some (.diverges, pool)

/-- `MutexPool::unlock(mutex_id)`: `mutex.lock.take().unwrap()` — a host
panic (`none`) both on a vacant slot and when the `lock` field is `None`
(mutex not held). -/
def MutexPool.unlock (pool : List (Option HostMutex)) (id : Nat) :
    Option (List (Option HostMutex)) :=
  match pool[id]? with
  | none => none
  | some none => none
  | some (some m) =>
    match m.holder with
    | none => none
    | some _ => some (pool.set id (some ⟨none⟩))

/-- The ghost holder of mutex `id` in the pool. -/
def holderAt (pool : List (Option HostMutex)) (id : Nat) : Option Nat :=
  match pool[id]? with
  | some (some m) => m.holder
  | _ => none

/-- The `mutex_take(mutex_id, timeout)` host function: a deadline of
`now + timeout` milliseconds, or no deadline when `timeout == TIMEOUT_MAX`;
returns `u32::from(success)`.  The outer `none` is the slab panic; the inner
returned value is `none` when the call never completes. -/
def mutexTake (pool : List (Option HostMutex)) (id tid timeoutMs now : Nat)
    (releaseAt : Option Nat) :
    Option (Option Nat × List (Option HostMutex)) :=
  let deadline := if timeoutMs = TIMEOUT_MAX then none else some (now + timeoutMs)
  (MutexPool.lock pool id tid deadline releaseAt).map fun res =>
    (match res.1 with
      | .acquired => some 1
      | .timedOut => some 0
      | .diverges => none,
     res.2)

/-- The `mutex_give(mutex_id)` host function: unlock and return
`u32::from(true)`. -/
def mutexGive (pool : List (Option HostMutex)) (id : Nat) :
    Option (Nat × List (Option HostMutex)) :=
  (MutexPool.unlock pool id).map fun p => (1, p)

lemma holderAt_set (pool : List (Option HostMutex)) (id : Nat)
    (h : Option Nat) (hid : id < pool.length) :
    holderAt (pool.set id (some ⟨h⟩)) id = h := by
  unfold holderAt
  rw [List.getElem?_set_self' ]
  · simp [hid]

/-- C3: `mutex_take` on an existing mutex returns 1 exactly when it acquires
the lock before the deadline `now + timeout_ms` (no deadline when
`timeout_ms = TIMEOUT_MAX`), in which case the caller holds the mutex;
it returns 0 only on timeout, leaving the pool unchanged and the caller not
holding; with `TIMEOUT_MAX` it never times out; and the mutex has at most one
holder afterwards. -/
theorem mutex_take_spec (pool : List (Option HostMutex)) (id tid timeoutMs now : Nat)
    (m : HostMutex) (releaseAt : Option Nat)
    (hm : pool[id]? = some (some m)) (hnotheld : m.holder ≠ some tid) :
    ∃ ret p, mutexTake pool id tid timeoutMs now releaseAt = some (ret, p) ∧
      ((ret = some 1) ↔
        (m.holder = none ∨
          ∃ r, releaseAt = some r ∧ (timeoutMs = TIMEOUT_MAX ∨ r ≤ now + timeoutMs))) ∧
      (ret = some 1 → holderAt p id = some tid) ∧
      (ret = some 0 → p = pool ∧ holderAt p id ≠ some tid) ∧
      (timeoutMs = TIMEOUT_MAX → ret ≠ some 0) ∧
      (∀ t1 t2, holderAt p id = some t1 → holderAt p id = some t2 → t1 = t2) := by
  have hid : id < pool.length := by
    rcases List.getElem?_eq_some_iff.1 hm with ⟨hlt, _⟩
    exact hlt
  have hset := holderAt_set pool id (some tid) hid
  have hold : holderAt pool id = m.holder := by
    unfold holderAt
    rw [hm]
  cases hh : m.holder with
  | none =>
    have heq : mutexTake pool id tid timeoutMs now releaseAt =
        some (some 1, pool.set id (some ⟨some tid⟩)) := by
      simp [mutexTake, MutexPool.lock, hm, hh]
    refine ⟨some 1, _, heq, by simp, fun _ => hset, ?_, ?_, ?_⟩
    · intro hc; cases hc
    · intro _ hc; cases hc
    · intro t1 t2 h1 h2
      rw [hset] at h1 h2
      cases h1; cases h2; rfl
  | some owner =>
    have hnh : holderAt pool id ≠ some tid := by
      rw [hold, hh]
      intro hc
      cases hc
      exact hnotheld hh
    cases hr : releaseAt with
    | none =>
      rcases Decidable.em (timeoutMs = TIMEOUT_MAX) with hT | hT
      · have heq : mutexTake pool id tid timeoutMs now none = some (none, pool) := by
          simp [mutexTake, MutexPool.lock, hm, hh, hT]
        refine ⟨none, pool, heq, by simp [hh, hr], ?_, ?_, ?_, ?_⟩
        · intro hc; cases hc
        · intro hc; cases hc
        · intro _ hc; cases hc
        · intro t1 t2 h1 h2
          rw [h1] at h2
          cases h2; rfl
      · have heq : mutexTake pool id tid timeoutMs now none = some (some 0, pool) := by
          simp [mutexTake, MutexPool.lock, hm, hh, hT]
        refine ⟨some 0, pool, heq, by simp [hh, hr], ?_, ?_, ?_, ?_⟩
        · intro hc; cases hc
        · intro _
          exact ⟨rfl, hnh⟩
        · intro hT2
          exact absurd hT2 hT
        · intro t1 t2 h1 h2
          rw [h1] at h2
          cases h2; rfl
    | some r =>
      rcases Decidable.em (timeoutMs = TIMEOUT_MAX) with hT | hT
      · have heq : mutexTake pool id tid timeoutMs now (some r) =
            some (some 1, pool.set id (some ⟨some tid⟩)) := by
          simp [mutexTake, MutexPool.lock, hm, hh, hT]
        refine ⟨some 1, _, heq, by simp [hh, hr, hT], fun _ => hset, ?_, ?_, ?_⟩
        · intro hc; cases hc
        · intro _ hc; cases hc
        · intro t1 t2 h1 h2
          rw [hset] at h1 h2
          cases h1; cases h2; rfl
      · rcases Decidable.em (r ≤ now + timeoutMs) with hle | hgt
        · have heq : mutexTake pool id tid timeoutMs now (some r) =
              some (some 1, pool.set id (some ⟨some tid⟩)) := by
            simp [mutexTake, MutexPool.lock, hm, hh, hT, hle]
          refine ⟨some 1, _, heq, by simp [hh, hr, hle], fun _ => hset, ?_, ?_, ?_⟩
          · intro hc; cases hc
          · intro hT2
            exact absurd hT2 hT
          · intro t1 t2 h1 h2
            rw [hset] at h1 h2
            cases h1; cases h2; rfl
        · have heq : mutexTake pool id tid timeoutMs now (some r) =
              some (some 0, pool) := by
            simp [mutexTake, MutexPool.lock, hm, hh, hT, hgt]
          refine ⟨some 0, pool, heq, by simp [hh, hr, hT, hgt], ?_, ?_, ?_, ?_⟩
          · intro hc; cases hc
          · intro _
            exact ⟨rfl, hnh⟩
          · intro hT2
            exact absurd hT2 hT
          · intro t1 t2 h1 h2
            rw [h1] at h2
            cases h2; rfl

/-- Witness for C3: a single free mutex in slot 0 and a 100 ms timeout from
`now = 0`; task 5 acquires it. -/
theorem mutex_take_spec_witness :
    ∃ ret p, mutexTake [some ⟨none⟩] 0 5 100 0 none = some (ret, p) ∧
      ((ret = some 1) ↔
        ((HostMutex.mk none).holder = none ∨
          ∃ r, (none : Option Nat) = some r ∧ (100 = TIMEOUT_MAX ∨ r ≤ 0 + 100))) ∧
      (ret = some 1 → holderAt p 0 = some 5) ∧
      (ret = some 0 → p = [some ⟨none⟩] ∧ holderAt p 0 ≠ some 5) ∧
      (100 = TIMEOUT_MAX → ret ≠ some 0) ∧
      (∀ t1 t2, holderAt p 0 = some t1 → holderAt p 0 = some t2 → t1 = t2) :=
  mutex_take_spec [some ⟨none⟩] 0 5 100 0 ⟨none⟩ none (by decide) (by decide)

/-- C4 counterexample: `mutex_give` on an existing but unheld mutex does not
return 1 — `mutex.lock.take().unwrap()` panics on `None`, modelled as `none`. -/
theorem mutex_give_unheld_panics :
    mutexGive [some ⟨none⟩] 0 = none ∧
      ∀ p, mutexGive [some ⟨none⟩] 0 ≠ some (1, p) := by
  constructor
  · rfl
  · intro p hc
    cases hc

/-- C4 (amended): `mutex_give` on an existing, currently held mutex drops the
guard and returns 1; on an unheld mutex the host panics (`unwrap` of `None`)
instead of permitting the call. -/
theorem mutex_give_spec (pool : List (Option HostMutex)) (id t : Nat)
    (m : HostMutex) (hm : pool[id]? = some (some m)) :
    (m.holder = some t →
      mutexGive pool id = some (1, pool.set id (some ⟨none⟩)) ∧
        holderAt (pool.set id (some ⟨none⟩)) id = none) ∧
    (m.holder = none → mutexGive pool id = none) := by
  have hid : id < pool.length := by
    rcases List.getElem?_eq_some_iff.1 hm with ⟨hlt, _⟩
    exact hlt
  constructor
  · intro hheld
    refine ⟨?_, holderAt_set pool id none hid⟩
    simp [mutexGive, MutexPool.unlock, hm, hheld]
  · intro hfree
    simp [mutexGive, MutexPool.unlock, hm, hfree]

/-- Witness for C4's amended claim: slot 0 held by task 3 is released and the
give returns 1; the same slot unheld makes the host panic. -/
theorem mutex_give_spec_witness :
    (((HostMutex.mk (some 3)).holder = some 3) →
      mutexGive [some ⟨some 3⟩] 0 = some (1, [some ⟨none⟩]) ∧
        holderAt [some ⟨none⟩] 0 = none) ∧
    (((HostMutex.mk (some 3)).holder = none) → mutexGive [some ⟨some 3⟩] 0 = none) := by
  have h := mutex_give_spec [some ⟨some 3⟩] 0 3 ⟨some 3⟩ (by decide)
  constructor
  · intro ht
    have := h.1 ht
    simpa using this
  · intro hc
    cases hc

/-! ## Simulator events (`pros-simulator-interface`)

Only the constructors the claims mention are modelled. -/

/-- `MotorEncoderUnits` (interface crate): 0 = Degrees, 1 = Rotations,
2 = Counts; default Degrees. -/
inductive MotorEncoderUnits where
  | degrees
  | rotations
  | counts
deriving DecidableEq, Repr

/-- `MotorBrakeMode` (interface crate): 0 = Coast, 1 = Brake, 2 = Hold;
default Coast. -/
inductive MotorBrakeMode where
  | coast
  | brake
  | hold
deriving DecidableEq, Repr

/-- The subset of `SimulatorEvent` used by the claims. -/
inductive SimulatorEvent where
  | warning (msg : String)
  | consoleMessage (msg : String)
  | lcdInitialized
  | lcdUpdated (lines : List String)
  | motorUpdated (port : Nat) (volts : Int) (encoderUnits : MotorEncoderUnits)
      (brakeMode : MotorBrakeMode)
deriving DecidableEq, Repr

/-- `LCD_HEIGHT` from the interface crate. -/
def LCD_HEIGHT : Nat := 8

/-- `LCD_WIDTH` from the interface crate. -/
def LCD_WIDTH : Nat := 40

/-! ## LCD (`host/lcd.rs` and `api/llemu.rs`)

`Lcd::set_line` / `clear` / `clear_line` return `Result<(), i32>`; events are
sent through the interface on success.  The API wrappers translate errors via
`unwrap_or_errno` — writing the errno code and returning `u32::from(false)`.
Button state is not modelled (no claim touches it). -/

/-- The LCD device state (`lines: LcdLines`, `initialized: bool`). -/
structure Lcd where
  lines : List String
  initialized : Bool
deriving DecidableEq, Repr

/-- `Lcd::set_line`: initialized check (ENXIO), line bounds check on `0..8`
(EINVAL), byte-length check against `LCD_WIDTH` (EINVAL), then store the line
and emit one `LcdUpdated` with the new lines. -/
def Lcd.set_line (lcd : Lcd) (line : Int) (text : String) :
    Except Int (Lcd × List SimulatorEvent) :=
  if ¬ lcd.initialized then .error ENXIO
  else if line < 0 ∨ (LCD_HEIGHT : Int) ≤ line then .error EINVAL
  else if LCD_WIDTH < text.utf8ByteSize then .error EINVAL
  else
    let lines := lcd.lines.set line.toNat text
    .ok ({ lcd with lines := lines }, [.lcdUpdated lines])

/-- `Lcd::clear`: initialized check, blank every line, emit one `LcdUpdated`. -/
def Lcd.clear (lcd : Lcd) : Except Int (Lcd × List SimulatorEvent) :=
  if ¬ lcd.initialized then .error ENXIO
  else
    let lines := lcd.lines.map fun _ => ""
    .ok ({ lcd with lines := lines }, [.lcdUpdated lines])

/-- `Lcd::clear_line`: initialized check, line bounds check, blank the line,
emit one `LcdUpdated`. -/
def Lcd.clear_line (lcd : Lcd) (line : Int) :
    Except Int (Lcd × List SimulatorEvent) :=
  if ¬ lcd.initialized then .error ENXIO
  else if line < 0 ∨ (LCD_HEIGHT : Int) ≤ line then .error EINVAL
  else
    let lines := lcd.lines.set line.toNat ""
    .ok ({ lcd with lines := lines }, [.lcdUpdated lines])

/-- `res.unwrap_or_errno(...)` glue shared by the LLEMU API wrappers: an error
writes the errno code and the wrapper returns 0; success returns 1. -/
def unwrapOrErrno (lcd : Lcd) (res : Except Int (Lcd × List SimulatorEvent)) :
    Lcd × List SimulatorEvent × Option Int × Nat :=
  match res with
  | .ok (l, evs) => (l, evs, none, 1)
  | .error e => (lcd, [], some e, 0)

/-- The `lcd_set_text(line, text_ptr)` host function (`text` is the C string
read at `text_ptr`). -/
def lcd_set_text (lcd : Lcd) (line : Int) (text : String) :
    Lcd × List SimulatorEvent × Option Int × Nat :=
  unwrapOrErrno lcd (lcd.set_line line text)

/-- The `lcd_clear` host function. -/
def lcd_clear (lcd : Lcd) : Lcd × List SimulatorEvent × Option Int × Nat :=
  unwrapOrErrno lcd lcd.clear

/-- The `lcd_clear_line(line)` host function. -/
def lcd_clear_line (lcd : Lcd) (line : Int) :
    Lcd × List SimulatorEvent × Option Int × Nat :=
  unwrapOrErrno lcd (lcd.clear_line line)

/-- C6: before `initialize`, every LCD mutating call sets errno to ENXIO and
returns 0; once initialized, a line index outside `0..8` or text longer than
the 40-byte width sets EINVAL and returns 0; and every valid mutating call
emits exactly one `LcdUpdated` event and returns 1. -/
theorem lcd_mutating_ops_spec (lcd : Lcd) (line : Int) (text : String) :
    (lcd.initialized = false →
      lcd_set_text lcd line text = (lcd, [], some ENXIO, 0) ∧
      lcd_clear lcd = (lcd, [], some ENXIO, 0) ∧
      lcd_clear_line lcd line = (lcd, [], some ENXIO, 0)) ∧
    (lcd.initialized = true → (line < 0 ∨ (LCD_HEIGHT : Int) ≤ line) →
      lcd_set_text lcd line text = (lcd, [], some EINVAL, 0) ∧
      lcd_clear_line lcd line = (lcd, [], some EINVAL, 0)) ∧
    (lcd.initialized = true → ¬ (line < 0 ∨ (LCD_HEIGHT : Int) ≤ line) →
      LCD_WIDTH < text.utf8ByteSize →
      lcd_set_text lcd line text = (lcd, [], some EINVAL, 0)) ∧
    (lcd.initialized = true → ¬ (line < 0 ∨ (LCD_HEIGHT : Int) ≤ line) →
      text.utf8ByteSize ≤ LCD_WIDTH →
      ∃ l, lcd_set_text lcd line text = (l, [.lcdUpdated l.lines], none, 1)) ∧
    (lcd.initialized = true →
      ∃ l, lcd_clear lcd = (l, [.lcdUpdated l.lines], none, 1)) ∧
    (lcd.initialized = true → ¬ (line < 0 ∨ (LCD_HEIGHT : Int) ≤ line) →
      ∃ l, lcd_clear_line lcd line = (l, [.lcdUpdated l.lines], none, 1)) := by
  refine ⟨?_, ?_, ?_, ?_, ?_, ?_⟩
  · intro h0
    refine ⟨?_, ?_, ?_⟩ <;>
      simp [lcd_set_text, lcd_clear, lcd_clear_line, Lcd.set_line, Lcd.clear,
        Lcd.clear_line, unwrapOrErrno, h0]
  · intro h1 hline
    constructor <;>
      simp [lcd_set_text, lcd_clear_line, Lcd.set_line, Lcd.clear_line,
        unwrapOrErrno, h1, hline]
  · intro h1 hline hlen
    simp [lcd_set_text, Lcd.set_line, unwrapOrErrno, h1, hline, hlen]
  · intro h1 hline hlen
    refine ⟨{ lcd with lines := lcd.lines.set line.toNat text }, ?_⟩
    simp [lcd_set_text, Lcd.set_line, unwrapOrErrno, h1, hline,
      show ¬ LCD_WIDTH < text.utf8ByteSize by omega]
  · intro h1
    refine ⟨{ lcd with lines := lcd.lines.map fun _ => "" }, ?_⟩
    simp [lcd_clear, Lcd.clear, unwrapOrErrno, h1]
  · intro h1 hline
    refine ⟨{ lcd with lines := lcd.lines.set line.toNat "" }, ?_⟩
    simp [lcd_clear_line, Lcd.clear_line, unwrapOrErrno, h1, hline]

/-- Witness for C6: `lcd_set_text(0, "hi")` on an uninitialized LCD returns 0
with errno ENXIO. -/
theorem lcd_mutating_ops_spec_witness :
    lcd_set_text ⟨["", "", "", "", "", "", "", ""], false⟩ 0 "hi" =
      (⟨["", "", "", "", "", "", "", ""], false⟩, [], some ENXIO, 0) :=
  ((lcd_mutating_ops_spec ⟨["", "", "", "", "", "", "", ""], false⟩ 0 "hi").1 rfl).1

/-! ## Motors (`host/smart_device.rs` and `api/motors.rs`) -/

/-- The `Motor` smart device. `output_volts` is an `i8` field; its value is
kept as an `Int` in `[-128, 127]`. -/
structure Motor where
  port : Nat
  brakeMode : MotorBrakeMode
  encoderUnits : MotorEncoderUnits
  outputVolts : Int
deriving DecidableEq, Repr

/-- `Motor::publish`: the `MotorUpdated` event carrying the motor state. -/
def Motor.publish (m : Motor) : SimulatorEvent :=
  .motorUpdated m.port m.outputVolts m.encoderUnits m.brakeMode

/-- `Motor::set_output_volts(volts: i8)`: warn when `volts < -127` (only
reachable at `-128` for an `i8`), clamp to `[-127, 127]`, publish. -/
def Motor.set_output_volts (m : Motor) (volts : Int) : Motor × List SimulatorEvent :=
  let warnings :=
    if volts < -127 then
      [SimulatorEvent.warning
        ("Motor voltage out of range: " ++ toString volts ++ " < -127")]
    else []
  let m2 := { m with outputVolts := min (max volts (-127)) 127 }
  (m2, warnings ++ [m2.publish])

/-- The `motor_move(port, voltage: i32)` host function on a port configured as
a motor: `voltage.try_into().unwrap()` converts to `i8`, which panics (`none`)
whenever `voltage` is outside `[-128, 127]`; otherwise sets the output volts
and returns 1. -/
def motor_move (m : Motor) (voltage : Int) :
    Option (Motor × List SimulatorEvent × Int) :=
  if voltage < -128 ∨ 127 < voltage then none
  else
    let (m2, evs) := m.set_output_volts voltage
    some (m2, evs, 1)

/-- C5 fails on the code: `motor_move(port, 200)` panics in the host at the
`i8` conversion (`try_into().unwrap()`) and emits nothing, instead of warning
and clamping to 127; the warn-then-clamp path does run for `v = -128`, the
only out-of-range value an `i8` can represent. -/
theorem motor_move_out_of_range_panics :
    motor_move ⟨0, .coast, .degrees, 0⟩ 200 = none ∧
    motor_move ⟨0, .coast, .degrees, 0⟩ (-128) =
      some (⟨0, .coast, .degrees, -127⟩,
        [.warning "Motor voltage out of range: -128 < -127",
         .motorUpdated 0 (-127) .degrees .coast], 1) ∧
    motor_move ⟨0, .coast, .degrees, 0⟩ 100 =
      some (⟨0, .coast, .degrees, 100⟩, [.motorUpdated 0 100 .degrees .coast], 1) := by
  refine ⟨rfl, ?_, ?_⟩ <;> rfl

/-! ## Generic I/O: the `write` host function (`api/generic_io.rs`)

`msg` stands for the UTF-8 decoding of the `count` bytes read from guest
memory at the buffer pointer (`String::from_utf8(buffer).unwrap()`). -/

/-- The `write(fd, buffer, count)` host function: `fd < 0` or
`count > i32::MAX` sets EINVAL and returns -1; a non-negative fd other than
1 or 2 sets EBADF and returns -1; otherwise emit one `ConsoleMessage` and
return `count as i32`. -/
def write (fd : Int) (count : Nat) (msg : String) :
    List SimulatorEvent × Option Int × Int :=
  if fd < 0 ∨ 2147483647 < count then ([], some EINVAL, -1)
  else if fd ≠ 1 ∧ fd ≠ 2 then ([], some EBADF, -1)
  else ([.consoleMessage msg], none, (count : Int))

/-- C9 counterexample: for the negative fd `-1` the code sets errno EINVAL
(22), not EBADF (9) as the claim states. -/
theorem write_negative_fd_sets_einval :
    write (-1) 3 "abc" = ([], some EINVAL, -1) ∧
      (write (-1) 3 "abc").2.1 ≠ some EBADF := by
  refine ⟨rfl, ?_⟩
  intro hc
  simp [write, EINVAL, EBADF] at hc

/-- C9 (amended): fd 1 or 2 with `count ≤ i32::MAX` emits a `ConsoleMessage`
with the read bytes and returns `count`; a negative fd (or
`count > i32::MAX`) sets errno EINVAL and returns -1; every other
non-negative fd (including 0) sets errno EBADF and returns -1. -/
theorem write_spec (fd : Int) (count : Nat) (msg : String) :
    (fd < 0 ∨ 2147483647 < count → write fd count msg = ([], some EINVAL, -1)) ∧
    (0 ≤ fd → fd ≠ 1 → fd ≠ 2 → count ≤ 2147483647 →
      write fd count msg = ([], some EBADF, -1)) ∧
    ((fd = 1 ∨ fd = 2) → count ≤ 2147483647 →
      write fd count msg = ([.consoleMessage msg], none, (count : Int))) := by
  refine ⟨?_, ?_, ?_⟩
  · intro h
    simp [write, h]
  · intro h0 h1 h2 hc
    have hno : ¬ (fd < 0 ∨ 2147483647 < count) := by omega
    simp [write, hno, h1, h2]
  · intro hf hc
    have hno : ¬ (fd < 0 ∨ 2147483647 < count) := by
      rcases hf with rfl | rfl <;> omega
    have hor : ¬ (fd ≠ 1 ∧ fd ≠ 2) := by
      rcases hf with rfl | rfl <;> simp
    simp [write, hno, hor]

/-- Witness for C9's amended claim: `write(0, ...)` (fd 0) sets EBADF and
returns -1. -/
theorem write_spec_witness :
    write 0 3 "abc" = ([], some EBADF, -1) :=
  (write_spec 0 3 "abc").2.1 (by decide) (by decide) (by decide) (by decide)

/-! ## Controllers (`host/controllers.rs`)

`Controller::update` sets each new-press bit to
`(current && !previous) || old_bit`; `Controllers::get_digital_new_press`
reads the bit and replaces it with `false` (`mem::replace(field, false)`).
On the first `ControllerUpdate` for an absent controller,
`From<ControllerState>` clones the digital state into `new_presses`. -/

/-- The twelve digital buttons of `DigitalControllerState`. -/
inductive Button where
  | l1
  | l2
  | r1
  | r2
  | up
  | down
  | left
  | right
  | x
  | b
  | y
  | a
deriving DecidableEq, Repr

/-- `DigitalControllerState`: twelve button booleans. -/
structure DigitalControllerState where
  l1 : Bool
  l2 : Bool
  r1 : Bool
  r2 : Bool
  up : Bool
  down : Bool
  left : Bool
  right : Bool
  x : Bool
  b : Bool
  y : Bool
  a : Bool
deriving DecidableEq, Repr

/-- Project a button's field (the per-button `match` in
`get_digital` / `get_digital_new_press`). -/
def DigitalControllerState.get (s : DigitalControllerState) : Button → Bool
  | .l1 => s.l1
  | .l2 => s.l2
  | .r1 => s.r1
  | .r2 => s.r2
  | .up => s.up
  | .down => s.down
  | .left => s.left
  | .right => s.right
  | .x => s.x
  | .b => s.b
  | .y => s.y
  | .a => s.a

/-- Replace a button's field with `false`
(`mem::replace(field, false)` through the mutable reference). -/
def DigitalControllerState.setFalse (s : DigitalControllerState) : Button → DigitalControllerState
  | .l1 => { s with l1 := false }
  | .l2 => { s with l2 := false }
  | .r1 => { s with r1 := false }
  | .r2 => { s with r2 := false }
  | .up => { s with up := false }
  | .down => { s with down := false }
  | .left => { s with left := false }
  | .right => { s with right := false }
  | .x => { s with x := false }
  | .b => { s with b := false }
  | .y => { s with y := false }
  | .a => { s with a := false }

/-- `AnalogControllerState`: the four `i8` joystick axes. -/
structure AnalogControllerState where
  left_x : Int
  left_y : Int
  right_x : Int
  right_y : Int
deriving DecidableEq, Repr

/-- `ControllerState` from the interface crate. -/
structure ControllerState where
  digital : DigitalControllerState
  analog : AnalogControllerState
deriving DecidableEq, Repr

/-- One connected controller: current state plus the edge-detection mask. -/
structure Controller where
  state : ControllerState
  new_presses : DigitalControllerState
deriving DecidableEq, Repr

/-- `From<ControllerState> for Controller`: the mask starts as a clone of the
digital state. -/
def Controller.fromState (s : ControllerState) : Controller :=
  { state := s, new_presses := s.digital }

/-- `Controller::update`: per button, the new mask bit is
`(current && !previous) || old_bit`, then the state is replaced. -/
def Controller.update (c : Controller) (s : ControllerState) : Controller :=
  { state := s,
    new_presses :=
      { l1 := (s.digital.l1 && !c.state.digital.l1) || c.new_presses.l1
        l2 := (s.digital.l2 && !c.state.digital.l2) || c.new_presses.l2
        r1 := (s.digital.r1 && !c.state.digital.r1) || c.new_presses.r1
        r2 := (s.digital.r2 && !c.state.digital.r2) || c.new_presses.r2
        up := (s.digital.up && !c.state.digital.up) || c.new_presses.up
        down := (s.digital.down && !c.state.digital.down) || c.new_presses.down
        left := (s.digital.left && !c.state.digital.left) || c.new_presses.left
        right := (s.digital.right && !c.state.digital.right) || c.new_presses.right
        x := (s.digital.x && !c.state.digital.x) || c.new_presses.x
        b := (s.digital.b && !c.state.digital.b) || c.new_presses.b
        y := (s.digital.y && !c.state.digital.y) || c.new_presses.y
        a := (s.digital.a && !c.state.digital.a) || c.new_presses.a } }

/-- Read-and-clear of one mask bit (the core of
`Controllers::get_digital_new_press` for a present controller). -/
def Controller.takeNewPress (c : Controller) (b : Button) : Bool × Controller :=
  (c.new_presses.get b, { c with new_presses := c.new_presses.setFalse b })

/-- Controller id of the master controller (pros-sys, spec §6). -/
def E_CONTROLLER_MASTER : Nat := 1

/-- Controller id of the partner controller (pros-sys, spec §6). -/
def E_CONTROLLER_PARTNER : Nat := 2

/-- `Controllers`: optional master and partner. -/
structure Controllers where
  master : Option Controller
  partner : Option Controller
deriving DecidableEq, Repr

/-- `Controllers::update`: merge a new state into an existing controller, or
connect a fresh one. -/
def Controllers.update (cs : Controllers)
    (newMaster newPartner : Option ControllerState) : Controllers :=
  { master :=
      match newMaster, cs.master with
      | some s, some c => some (c.update s)
      | some s, none => some (Controller.fromState s)
      | none, m => m,
    partner :=
      match newPartner, cs.partner with
      | some s, some c => some (c.update s)
      | some s, none => some (Controller.fromState s)
      | none, p => p }

/-- `Controllers::get_digital_new_press`: EINVAL on an unknown controller id,
`false` for an absent controller, otherwise read-and-clear the mask bit. -/
def Controllers.get_digital_new_press (cs : Controllers) (id : Nat) (b : Button) :
    Except Int (Bool × Controllers) :=
  if id = E_CONTROLLER_MASTER then
    match cs.master with
    | some c =>
      let r := c.takeNewPress b
      .ok (r.1, { cs with master := some r.2 })
    | none => .ok (false, cs)
  else if id = E_CONTROLLER_PARTNER then
    match cs.partner with
    | some c =>
      let r := c.takeNewPress b
      .ok (r.1, { cs with partner := some r.2 })
    | none => .ok (false, cs)
  else .error EINVAL

/-- A step of the interaction trace for one connected controller: either a
`ControllerUpdate` carrying a fresh state, or a guest read of button `b`. -/
inductive ControllerOp where
  | update (s : ControllerState)
  | read (b : Button)
deriving DecidableEq, Repr

/-- Execute a trace against one controller. -/
def runController (c : Controller) : List ControllerOp → Controller
  | [] => c
  | .update s :: rest => runController (c.update s) rest
  | .read b :: rest => runController (c.takeNewPress b).2 rest

/-- Claim-side description: does the trace contain a read of button `b`? -/
def hasRead : List ControllerOp → Button → Bool
  | [], _ => false
  | .update _ :: rest, b => hasRead rest b
  | .read b' :: rest, b => b' = b || hasRead rest b

/-- Claim-side description: does the trace contain a rising edge of `b`
(false-to-true across an update, starting from state `prev`) that is not
followed by a read of `b`? -/
def unconsumedEdge (prev : ControllerState) : List ControllerOp → Button → Bool
  | [], _ => false
  | .update s :: rest, b =>
      ((s.digital.get b && !prev.digital.get b) && !hasRead rest b) ||
        unconsumedEdge s rest b
  | .read _ :: rest, b => unconsumedEdge prev rest b

lemma update_get (c : Controller) (s : ControllerState) (b : Button) :
    (c.update s).new_presses.get b =
      ((s.digital.get b && !c.state.digital.get b) || c.new_presses.get b) := by
  cases b <;> rfl

lemma setFalse_get (n : DigitalControllerState) (b' b : Button) :
    (n.setFalse b').get b = if b' = b then false else n.get b := by
  cases b' <;> cases b <;> rfl

lemma run_newPress (c : Controller) (ops : List ControllerOp) (b : Button) :
    (runController c ops).new_presses.get b =
      ((c.new_presses.get b && !hasRead ops b) || unconsumedEdge c.state ops b) := by
  induction ops generalizing c with
  | nil => simp [runController, hasRead, unconsumedEdge]
  | cons op rest ih =>
    cases op with
    | update s =>
      show (runController (c.update s) rest).new_presses.get b = _
      rw [ih]
      rw [update_get]
      show _ = (c.new_presses.get b && !hasRead rest b ||
        ((s.digital.get b && !c.state.digital.get b) && !hasRead rest b ||
          unconsumedEdge s rest b))
      have hstate : (c.update s).state = s := rfl
      rw [hstate]
      cases s.digital.get b <;> cases c.state.digital.get b <;>
        cases c.new_presses.get b <;> cases hasRead rest b <;>
        cases unconsumedEdge s rest b <;> rfl
    | read b' =>
      show (runController (c.takeNewPress b').2 rest).new_presses.get b = _
      rw [ih]
      show _ = (c.new_presses.get b && !((b' = b : Bool) || hasRead rest b) ||
        unconsumedEdge c.state rest b)
      have h2 : (c.takeNewPress b').2.new_presses.get b =
          if b' = b then false else c.new_presses.get b := setFalse_get _ _ _
      have hst : (c.takeNewPress b').2.state = c.state := rfl
      rw [h2, hst]
      rcases Decidable.em (b' = b) with he | he
      · simp [he]
      · simp [he]

/-- A step of the interaction trace at the `Controllers` layer: a
`ControllerUpdate(master?, partner?)` message carrying both optional payloads,
or a guest read `controller_get_digital_new_press(rid, b)` of any controller
id. -/
inductive ControllersOp where
  | update (m p : Option ControllerState)
  | read (rid : Nat) (b : Button)
deriving DecidableEq, Repr

/-- Execute a `Controllers`-layer trace (an erroneous read sets errno and
leaves the state unchanged). -/
def runControllers (id : Nat) (cs : Controllers) : List ControllersOp → Controllers
  | [] => cs
  | .update m p :: rest => runControllers id (cs.update m p) rest
  | .read rid b :: rest =>
      match cs.get_digital_new_press rid b with
      | .ok r => runControllers id r.2 rest
      | .error _ => runControllers id cs rest

/-- Project a `Controllers`-layer trace onto the controller with the given id:
keep the updates that carry a payload for it and the reads addressed to it. -/
def projOps (id : Nat) : List ControllersOp → List ControllerOp
  | [] => []
  | .update m p :: rest =>
      match (if id = E_CONTROLLER_MASTER then m else p) with
      | some s => .update s :: projOps id rest
      | none => projOps id rest
  | .read rid b :: rest =>
      if rid = id then .read b :: projOps id rest else projOps id rest

/-- A read addressed to a controller other than the master leaves the master
slot untouched (it either mutates the partner slot or errors with EINVAL). -/
lemma read_other_keeps_master (cs : Controllers) (rid : Nat)
    (hrid : rid ≠ E_CONTROLLER_MASTER) (b' : Button) :
    (∃ v p, cs.get_digital_new_press rid b' = .ok (v, ⟨cs.master, p⟩)) ∨
      cs.get_digital_new_press rid b' = .error EINVAL := by
  simp only [Controllers.get_digital_new_press, if_neg hrid]
  rcases Decidable.em (rid = E_CONTROLLER_PARTNER) with h2 | h2
  · rw [if_pos h2]
    cases cs.partner with
    | some c2 => exact Or.inl ⟨_, _, rfl⟩
    | none => exact Or.inl ⟨_, _, rfl⟩
  · rw [if_neg h2]
    exact Or.inr rfl

/-- A read addressed to a controller other than the partner leaves the partner
slot untouched. -/
lemma read_other_keeps_partner (cs : Controllers) (rid : Nat)
    (hrid : rid ≠ E_CONTROLLER_PARTNER) (b' : Button) :
    (∃ v m, cs.get_digital_new_press rid b' = .ok (v, ⟨m, cs.partner⟩)) ∨
      cs.get_digital_new_press rid b' = .error EINVAL := by
  rcases Decidable.em (rid = E_CONTROLLER_MASTER) with h1 | h1
  · simp only [Controllers.get_digital_new_press, if_pos h1]
    cases cs.master with
    | some c2 => exact Or.inl ⟨_, _, rfl⟩
    | none => exact Or.inl ⟨_, _, rfl⟩
  · simp only [Controllers.get_digital_new_press, if_neg h1, if_neg hrid]
    exact Or.inr (by simp)

/-- Simulation for the master slot: a `Controllers`-layer run with the master
connected as `c` carries the master slot to the plain `runController` of the
projected trace, for some final partner slot. -/
lemma runControllers_master (c : Controller) (other : Option Controller)
    (ops : List ControllersOp) :
    ∃ q, runControllers E_CONTROLLER_MASTER ⟨some c, other⟩ ops =
      ⟨some (runController c (projOps E_CONTROLLER_MASTER ops)), q⟩ := by
  induction ops generalizing c other with
  | nil => exact ⟨other, rfl⟩
  | cons op rest ih =>
    cases op with
    | update m p =>
      cases m with
      | none =>
        show ∃ q, runControllers E_CONTROLLER_MASTER
            (Controllers.update ⟨some c, other⟩ none p) rest = _
        have h2 : Controllers.update ⟨some c, other⟩ none p =
            ⟨some c, (Controllers.update ⟨some c, other⟩ none p).partner⟩ := rfl
        have h3 : projOps E_CONTROLLER_MASTER (.update none p :: rest) =
            projOps E_CONTROLLER_MASTER rest := rfl
        rw [h2, h3]
        exact ih c _
      | some s =>
        show ∃ q, runControllers E_CONTROLLER_MASTER
            (Controllers.update ⟨some c, other⟩ (some s) p) rest = _
        have h2 : Controllers.update ⟨some c, other⟩ (some s) p =
            ⟨some (c.update s), (Controllers.update ⟨some c, other⟩ (some s) p).partner⟩ := rfl
        have h3 : projOps E_CONTROLLER_MASTER (.update (some s) p :: rest) =
            .update s :: projOps E_CONTROLLER_MASTER rest := rfl
        rw [h2, h3]
        exact ih (c.update s) _
    | read rid b' =>
      rcases Decidable.em (rid = E_CONTROLLER_MASTER) with hr | hr
      · subst hr
        have h1 : Controllers.get_digital_new_press ⟨some c, other⟩
              E_CONTROLLER_MASTER b' =
            .ok ((c.takeNewPress b').1, ⟨some (c.takeNewPress b').2, other⟩) := rfl
        have h3 : projOps E_CONTROLLER_MASTER (.read E_CONTROLLER_MASTER b' :: rest) =
            .read b' :: projOps E_CONTROLLER_MASTER rest := by
          simp [projOps]
        rw [h3]
        show ∃ q,
          (match Controllers.get_digital_new_press ⟨some c, other⟩
              E_CONTROLLER_MASTER b' with
            | .ok r => runControllers E_CONTROLLER_MASTER r.2 rest
            | .error _ => runControllers E_CONTROLLER_MASTER ⟨some c, other⟩ rest) = _
        rw [h1]
        exact ih (c.takeNewPress b').2 other
      · have h3 : projOps E_CONTROLLER_MASTER (.read rid b' :: rest) =
            projOps E_CONTROLLER_MASTER rest := by
          simp [projOps, hr]
        rw [h3]
        show ∃ q,
          (match Controllers.get_digital_new_press ⟨some c, other⟩ rid b' with
            | .ok r => runControllers E_CONTROLLER_MASTER r.2 rest
            | .error _ => runControllers E_CONTROLLER_MASTER ⟨some c, other⟩ rest) = _
        rcases read_other_keeps_master ⟨some c, other⟩ rid hr b' with ⟨v, p, hok⟩ | herr
        · rw [hok]
          exact ih c p
        · rw [herr]
          exact ih c other

/-- Simulation for the partner slot, symmetric to `runControllers_master`. -/
lemma runControllers_partner (c : Controller) (other : Option Controller)
    (ops : List ControllersOp) :
    ∃ q, runControllers E_CONTROLLER_PARTNER ⟨other, some c⟩ ops =
      ⟨q, some (runController c (projOps E_CONTROLLER_PARTNER ops))⟩ := by
  induction ops generalizing c other with
  | nil => exact ⟨other, rfl⟩
  | cons op rest ih =>
    cases op with
    | update m p =>
      cases p with
      | none =>
        show ∃ q, runControllers E_CONTROLLER_PARTNER
            (Controllers.update ⟨other, some c⟩ m none) rest = _
        have h2 : Controllers.update ⟨other, some c⟩ m none =
            ⟨(Controllers.update ⟨other, some c⟩ m none).master, some c⟩ := rfl
        have h3 : projOps E_CONTROLLER_PARTNER (.update m none :: rest) =
            projOps E_CONTROLLER_PARTNER rest := by
          simp [projOps, E_CONTROLLER_MASTER, E_CONTROLLER_PARTNER]
        rw [h2, h3]
        exact ih c _
      | some s =>
        show ∃ q, runControllers E_CONTROLLER_PARTNER
            (Controllers.update ⟨other, some c⟩ m (some s)) rest = _
        have h2 : Controllers.update ⟨other, some c⟩ m (some s) =
            ⟨(Controllers.update ⟨other, some c⟩ m (some s)).master, some (c.update s)⟩ := rfl
        have h3 : projOps E_CONTROLLER_PARTNER (.update m (some s) :: rest) =
            .update s :: projOps E_CONTROLLER_PARTNER rest := by
          simp [projOps, E_CONTROLLER_MASTER, E_CONTROLLER_PARTNER]
        rw [h2, h3]
        exact ih (c.update s) _
    | read rid b' =>
      rcases Decidable.em (rid = E_CONTROLLER_PARTNER) with hr | hr
      · subst hr
        have h1 : Controllers.get_digital_new_press ⟨other, some c⟩
              E_CONTROLLER_PARTNER b' =
            .ok ((c.takeNewPress b').1, ⟨other, some (c.takeNewPress b').2⟩) := rfl
        have h3 : projOps E_CONTROLLER_PARTNER (.read E_CONTROLLER_PARTNER b' :: rest) =
            .read b' :: projOps E_CONTROLLER_PARTNER rest := by
          simp [projOps]
        rw [h3]
        show ∃ q,
          (match Controllers.get_digital_new_press ⟨other, some c⟩
              E_CONTROLLER_PARTNER b' with
            | .ok r => runControllers E_CONTROLLER_PARTNER r.2 rest
            | .error _ => runControllers E_CONTROLLER_PARTNER ⟨other, some c⟩ rest) = _
        rw [h1]
        exact ih (c.takeNewPress b').2 other
      · have h3 : projOps E_CONTROLLER_PARTNER (.read rid b' :: rest) =
            projOps E_CONTROLLER_PARTNER rest := by
          simp [projOps, hr]
        rw [h3]
        show ∃ q,
          (match Controllers.get_digital_new_press ⟨other, some c⟩ rid b' with
            | .ok r => runControllers E_CONTROLLER_PARTNER r.2 rest
            | .error _ => runControllers E_CONTROLLER_PARTNER ⟨other, some c⟩ rest) = _
        rcases read_other_keeps_partner ⟨other, some c⟩ rid hr b' with ⟨v, m2, hok⟩ | herr
        · rw [hok]
          exact ih c m2
        · rw [herr]
          exact ih c other

/-- C7: for either connected controller id (master or partner), after
connecting it with state `s0` and processing any trace of `ControllerUpdate`
messages and reads, `controller_get_digital_new_press(id, b)` returns true
exactly when some rising edge of `b` observed by this controller has not yet
been consumed by a read of `b` addressed to it (the connection itself counts
as the first observation), and an immediately repeated read returns false. -/
theorem controller_new_press_edge (id : Nat)
    (hid : id = E_CONTROLLER_MASTER ∨ id = E_CONTROLLER_PARTNER)
    (s0 : ControllerState) (ops : List ControllersOp) (b : Button)
    (other : Option Controller) :
    ∃ cs2,
      Controllers.get_digital_new_press
        (runControllers id
          (if id = E_CONTROLLER_MASTER then ⟨some (Controller.fromState s0), other⟩
           else ⟨other, some (Controller.fromState s0)⟩) ops) id b =
        .ok ((s0.digital.get b && !hasRead (projOps id ops) b) ||
              unconsumedEdge s0 (projOps id ops) b, cs2) ∧
      ∃ cs3, Controllers.get_digital_new_press cs2 id b = .ok (false, cs3) := by
  rcases hid with rfl | rfl
  · rw [if_pos rfl]
    obtain ⟨q, hq⟩ := runControllers_master (Controller.fromState s0) other ops
    rw [hq]
    set c := runController (Controller.fromState s0)
      (projOps E_CONTROLLER_MASTER ops) with hc
    have hval : c.new_presses.get b =
        ((s0.digital.get b && !hasRead (projOps E_CONTROLLER_MASTER ops) b) ||
          unconsumedEdge s0 (projOps E_CONTROLLER_MASTER ops) b) := by
      rw [hc, run_newPress]
      rfl
    have hclear : (c.takeNewPress b).2.new_presses.get b = false := by
      have := setFalse_get c.new_presses b b
      simpa [Controller.takeNewPress] using this
    refine ⟨⟨some (c.takeNewPress b).2, q⟩, ?_, ?_⟩
    · simp only [Controllers.get_digital_new_press, if_pos rfl]
      rw [← hval]
      rfl
    · refine ⟨⟨some ((c.takeNewPress b).2.takeNewPress b).2, q⟩, ?_⟩
      simp only [Controllers.get_digital_new_press, if_pos rfl]
      rw [show ((c.takeNewPress b).2.takeNewPress b).1 =
          (c.takeNewPress b).2.new_presses.get b from rfl] at *
      rw [hclear]
      simp
  · rw [if_neg (by decide)]
    obtain ⟨q, hq⟩ := runControllers_partner (Controller.fromState s0) other ops
    rw [hq]
    set c := runController (Controller.fromState s0)
      (projOps E_CONTROLLER_PARTNER ops) with hc
    have hval : c.new_presses.get b =
        ((s0.digital.get b && !hasRead (projOps E_CONTROLLER_PARTNER ops) b) ||
          unconsumedEdge s0 (projOps E_CONTROLLER_PARTNER ops) b) := by
      rw [hc, run_newPress]
      rfl
    have hclear : (c.takeNewPress b).2.new_presses.get b = false := by
      have := setFalse_get c.new_presses b b
      simpa [Controller.takeNewPress] using this
    refine ⟨⟨q, some (c.takeNewPress b).2⟩, ?_, ?_⟩
    · simp only [Controllers.get_digital_new_press, if_neg (by decide : ¬ E_CONTROLLER_PARTNER = E_CONTROLLER_MASTER), if_pos rfl]
      rw [← hval]
      rfl
    · refine ⟨⟨q, some ((c.takeNewPress b).2.takeNewPress b).2⟩, ?_⟩
      simp only [Controllers.get_digital_new_press, if_neg (by decide : ¬ E_CONTROLLER_PARTNER = E_CONTROLLER_MASTER), if_pos rfl]
      rw [show ((c.takeNewPress b).2.takeNewPress b).1 =
          (c.takeNewPress b).2.new_presses.get b from rfl] at *
      rw [hclear]
      simp

/-- Controller state with no buttons pressed and centred sticks. -/
def restState : ControllerState :=
  ⟨⟨false, false, false, false, false, false, false, false, false, false, false, false⟩,
   ⟨0, 0, 0, 0⟩⟩

/-- Controller state with only the X button pressed. -/
def xPressed : ControllerState :=
  ⟨⟨false, false, false, false, false, false, false, false, true, false, false, false⟩,
   ⟨0, 0, 0, 0⟩⟩

/-- Witness for C7 on the partner controller: connected at rest, one
`ControllerUpdate` pressing X on both controllers yields one new-press read of
true, and the repeated read returns false. -/
theorem controller_new_press_edge_witness :
    ∃ cs2,
      Controllers.get_digital_new_press
        (runControllers E_CONTROLLER_PARTNER
          (if E_CONTROLLER_PARTNER = E_CONTROLLER_MASTER then
            ⟨some (Controller.fromState restState), none⟩
           else ⟨none, some (Controller.fromState restState)⟩)
          [.update (some xPressed) (some xPressed)]) E_CONTROLLER_PARTNER .x =
        .ok ((restState.digital.get .x &&
              !hasRead (projOps E_CONTROLLER_PARTNER
                [.update (some xPressed) (some xPressed)]) .x) ||
              unconsumedEdge restState
                (projOps E_CONTROLLER_PARTNER
                  [.update (some xPressed) (some xPressed)]) .x, cs2) ∧
      ∃ cs3, Controllers.get_digital_new_press cs2 E_CONTROLLER_PARTNER .x =
        .ok (false, cs3) :=
  controller_new_press_edge E_CONTROLLER_PARTNER (Or.inr rfl) restState
    [.update (some xPressed) (some xPressed)] .x none

/-! ## Task lifecycle (`host/task.rs`): `task_state`, `delete_task` and the
driver-loop finalisation in `run_to_completion`

Only the per-task fields the claims observe are modelled: the `TaskState` and
the `marked_for_delete` flag.  The pool is the id-keyed map, and
`deleted_tasks` is the `HashSet<u32>` of recorded deletions. -/

/-- `TaskState` from `host/task.rs`. -/
inductive TaskState where
  | running
  | ready
  | finished
  | blocked
  | deleted
deriving DecidableEq, Repr

/-- The per-task fields observed by the lifecycle claims. -/
structure TaskRec where
  state : TaskState
  markedForDelete : Bool
deriving DecidableEq, Repr

/-- The `TaskPool` fields observed by the lifecycle claims. -/
structure TaskPoolSt where
  pool : List (Nat × TaskRec)
  deletedTasks : List Nat
deriving DecidableEq, Repr

/-- `HashMap::remove`: drop the entry with the given id. -/
def removeId (pool : List (Nat × TaskRec)) (id : Nat) : List (Nat × TaskRec) :=
  pool.filter fun t => t.1 ≠ id

/-- `TaskPool::task_state`: ids in `deleted_tasks` report `Deleted`; otherwise
the pool entry's state, or `None` for an unknown id. -/
def TaskPoolSt.task_state (s : TaskPoolSt) (id : Nat) : Option TaskState :=
  if id ∈ s.deletedTasks then some .deleted
  else (s.pool.lookup id).map TaskRec.state

/-- `TaskPool::delete_task`: a missing id is a no-op; a `Running` task (the
current task deleting itself) is only marked for deletion and the call yields
(the returned flag); any other task is removed from the pool immediately and
its id recorded in `deleted_tasks`. -/
def TaskPoolSt.delete_task (s : TaskPoolSt) (id : Nat) : TaskPoolSt × Bool :=
  match s.pool.lookup id with
  | none => (s, false)
  | some t =>
    if t.state = .running then
      ({ s with
          pool := s.pool.map fun u =>
            if u.1 = id then (u.1, { u.2 with markedForDelete := true }) else u },
        true)
    else
      ({ pool := removeId s.pool id, deletedTasks := id :: s.deletedTasks }, false)

/-- The tail of one `run_to_completion` iteration for current task `id`
(lines 487-508): a resolved future marks the task and sets `Finished`; a
pending future of a marked task sets `Deleted`; a marked task is then removed
from the pool — without touching `deleted_tasks`. -/
def driverFinalize (s : TaskPoolSt) (id : Nat) (polledReady : Bool) : TaskPoolSt :=
  match s.pool.lookup id with
  | none => s
  | some t =>
    let t2 :=
      if polledReady then { state := TaskState.finished, markedForDelete := true }
      else if t.markedForDelete then { t with state := TaskState.deleted }
      else t
    if t2.markedForDelete then { s with pool := removeId s.pool id } else s

lemma lookup_removeId (pool : List (Nat × TaskRec)) (id : Nat) :
    (removeId pool id).lookup id = none := by
  induction pool with
  | nil => rfl
  | cons u rest ih =>
    rcases Decidable.em (u.1 = id) with h | h
    · simpa [removeId, List.filter_cons, h] using ih
    · have hne : (u.1 ≠ id : Bool) = true := by simp [h]
      simp only [removeId] at ih ⊢
      rw [List.filter_cons, if_pos hne, List.lookup_cons]
      have : (id == u.1) = false := by
        simp [Ne.symm h]
      rw [this]
      exact ih

/-- C8 counterexample: a task that reaches `Deleted` through the driver loop
is no longer queryable.  Task 1 is Running and calls `task_delete(1)` on
itself: `delete_task` marks it, and the driver-loop finalisation sets its
state to `Deleted` and removes it from the pool without recording it in
`deleted_tasks`, so `task_state(1)` afterwards returns `None`, not
`Some(Deleted)`.  A completed future (`polledReady = true`) is likewise
removed unrecorded. -/
theorem deleted_task_not_queryable :
    (TaskPoolSt.task_state
        (driverFinalize
          (TaskPoolSt.delete_task ⟨[(1, ⟨.running, false⟩)], []⟩ 1).1 1 false) 1
      = none) ∧
    TaskPoolSt.task_state
        (driverFinalize
          (TaskPoolSt.delete_task ⟨[(1, ⟨.running, false⟩)], []⟩ 1).1 1 false) 1
      ≠ some .deleted ∧
    TaskPoolSt.task_state (driverFinalize ⟨[(1, ⟨.running, false⟩)], []⟩ 1 true) 1
      = none := by
  refine ⟨rfl, ?_, rfl⟩
  intro hc
  cases hc

/-- C8 (amended): only ids removed by `task_delete` while their task was not
`Running` are recorded in `deleted_tasks` and remain queryable as `Deleted`;
a task finalised by the driver loop — because its future resolved, or because
it self-deleted and was polled while marked — is removed from the pool without
being recorded, so a later `task_state` query returns `None`. -/
theorem task_deletion_queryability (s : TaskPoolSt) (id : Nat) (t : TaskRec)
    (hl : s.pool.lookup id = some t) :
    (t.state ≠ .running →
      (s.delete_task id).1.task_state id = some .deleted) ∧
    (id ∉ s.deletedTasks →
      (driverFinalize s id true).task_state id = none) ∧
    (id ∉ s.deletedTasks → t.markedForDelete = true →
      (driverFinalize s id false).task_state id = none) := by
  refine ⟨?_, ?_, ?_⟩
  · intro hnr
    simp only [TaskPoolSt.delete_task, hl, if_neg hnr]
    simp [TaskPoolSt.task_state]
  · intro hnd
    simp [driverFinalize, hl, TaskPoolSt.task_state, hnd, lookup_removeId]
  · intro hnd hmk
    simp [driverFinalize, hl, hmk, TaskPoolSt.task_state, hnd, lookup_removeId]

/-- Witness for C8's amended claim: deleting Ready task 1 keeps it queryable
as Deleted; driver-loop completion of task 1 leaves `task_state` at `None`. -/
theorem task_deletion_queryability_witness :
    ((TaskRec.mk .ready false).state ≠ .running →
      (TaskPoolSt.delete_task ⟨[(1, ⟨.ready, false⟩)], []⟩ 1).1.task_state 1 =
        some .deleted) ∧
    (1 ∉ ([] : List Nat) →
      (driverFinalize ⟨[(1, ⟨.ready, false⟩)], []⟩ 1 true).task_state 1 = none) ∧
    (1 ∉ ([] : List Nat) → (TaskRec.mk .ready false).markedForDelete = true →
      (driverFinalize ⟨[(1, ⟨.ready, false⟩)], []⟩ 1 false).task_state 1 = none) :=
  task_deletion_queryability ⟨[(1, ⟨.ready, false⟩)], []⟩ 1 ⟨.ready, false⟩ (by rfl)

/-! ## `task_create` priority handling (`api/rtos_facilities.rs` and
`TaskOptions::priority`)

`task_create` builds the options with `.priority(priority - 1)` on a `u32`,
and `TaskOptions::priority` runs `assert!(priority < TASK_PRIORITIES)`.
A guest `prio = 0` underflows (panicking immediately in a debug build, and
wrapping to `0xFFFFFFFF` — which fails the assert — in a release build);
either way the host panics, modelled as `none`. -/

/-- The internal priority computed by `task_create(prio)`: wrapping `u32`
subtraction of 1 followed by the `assert!(priority < TASK_PRIORITIES)`. -/
def task_create_priority (prio : Nat) : Option Nat :=
  let internal := (prio + 4294967295) % 4294967296
  if internal < TASK_PRIORITIES then some internal else none

/-- C10: `task_create` panics the host (no guest-visible errno) for
`prio = 0` or `prio > 16`, and spawns with internal priority `prio - 1` for
every `1 ≤ prio ≤ 16`. -/
theorem task_create_priority_spec (prio : Nat) (h : prio < 4294967296) :
    (task_create_priority prio = none ↔ (prio = 0 ∨ 16 < prio)) ∧
    (1 ≤ prio → prio ≤ 16 → task_create_priority prio = some (prio - 1)) := by
  have hint : (prio + 4294967295) % 4294967296 =
      if prio = 0 then 4294967295 else prio - 1 := by
    rcases Decidable.em (prio = 0) with h0 | h0
    · rw [if_pos h0, h0]
    · rw [if_neg h0]
      omega
  unfold task_create_priority TASK_PRIORITIES
  rw [hint]
  rcases Decidable.em (prio = 0) with h0 | h0
  · rw [if_pos h0]
    constructor
    · constructor
      · intro _
        exact Or.inl h0
      · intro _
        rfl
    · intro h1
      omega
  · rw [if_neg h0]
    rcases Decidable.em (prio - 1 < 16) with hlt | hlt
    · rw [if_pos hlt]
      constructor
      · constructor
        · intro hc
          cases hc
        · intro hor
          rcases hor with hz | hg
          · exact absurd hz h0
          · omega
      · intro _ _
        rfl
    · rw [if_neg hlt]
      constructor
      · constructor
        · intro _
          right
          omega
        · intro _
          rfl
      · intro _ _
        omega

/-- Witness for C10 at `prio = 7`: the spawned internal priority is 6. -/
theorem task_create_priority_spec_witness :
    (task_create_priority 7 = none ↔ (7 = 0 ∨ 16 < 7)) ∧
    (1 ≤ 7 → 7 ≤ 16 → task_create_priority 7 = some (7 - 1)) :=
  task_create_priority_spec 7 (by decide)

end ProsSim
